import Mathlib

/-!
Shallow embedding of the frame specification and versioning engine of the
stagger ID3v2 library (src/stagger/frames.py), together with theorems
settling the frozen claims about it.

Strings are modelled as lists of Unicode codepoints, byte strings as lists
of naturals below 256, Python exceptions as an explicit error type carried
in `Except`.  The field codecs (stagger/specs.py) and the tag container's
per-frame decode wrapper are not under src/; where needed they are
modelled from the spec and marked as such in their doc comments.
-/

set_option maxRecDepth 4096
set_option linter.unusedVariables false

/-- Unicode string: a list of codepoints. -/
abbrev Str := List Nat

/-- Python exceptions raised (or catchable) by the embedded code.
`unboundLocalError` is raised when a local name is read before assignment;
`unicodeEncodeError` is what `str.encode` raises on unrepresentable text;
`validationError`, `encodingError` and `incompatibleFrameError` come from
the library's error taxonomy (spec section 7); `frameDecodeError` stands
for the per-field decode failures of the field codecs. -/
inductive PyError where
  | unboundLocalError
  | incompatibleFrameError (frameid : String) (version : Nat)
  | unicodeEncodeError
  | valueError (msg : String)
  | typeError
  | validationError
  | frameDecodeError (msg : String)
  | encodingError (msg : String)
deriving Repr, DecidableEq

/-- Version tag of a frame class: the `_version` class attribute is either a
single int (e.g. `2`) or a tuple of ints (e.g. `(3, 4)`), queried by
`Frame._in_version` (frames.py lines 53-61). -/
inductive VersionTag where
  | single (v : Nat)
  | many (vs : List Nat)
deriving Repr, DecidableEq

/-- Membership test from the body of `Frame._in_version` (frames.py lines
57-59): `self._version == version or (isinstance(self._version,
collections.Container) and version in self._version)`.  An int `_version`
compares by equality; a tuple is a Container and uses membership. -/
def versionMatches (tag : VersionTag) (version : Nat) : Bool :=
  match tag with
  | .single v => v == version
  | .many vs => vs.contains version

/-- Static data of one frame class: its `__name__`, its `_version` tag, the
names of its `_framespec` entries, the optional `_v2_frame` counterpart
class, and its first base class when that base is itself a Frame subclass
(frames.py lines 11-14 and the class statements of stagger/id3.py). -/
inductive FrameClass where
  | mk (name : String) (version : VersionTag) (fieldNames : List String)
       (v2 : Option FrameClass) (base : Option FrameClass)

/-- Class name (`__name__`). -/
def FrameClass.name : FrameClass → String
  | .mk n _ _ _ _ => n

/-- Version tag (`_version`). -/
def FrameClass.version : FrameClass → VersionTag
  | .mk _ v _ _ _ => v

/-- Names of the `_framespec` entries. -/
def FrameClass.fieldNames : FrameClass → List String
  | .mk _ _ ns _ _ => ns

/-- Optional `_v2_frame` counterpart class. -/
def FrameClass.v2 : FrameClass → Option FrameClass
  | .mk _ _ _ c _ => c

/-- First base class, when it is a Frame subclass. -/
def FrameClass.base : FrameClass → Option FrameClass
  | .mk _ _ _ _ b => b

/-- Text encodings recognized by the encoding selector byte (0 = latin-1,
1 = utf-16, 2 = utf-16-be, 3 = utf-8). -/
inductive Encoding where
  | latin1
  | utf16
  | utf16be
  | utf8
deriving Repr, DecidableEq

/-- Field values held by a frame attribute: Python `None`, an encoding
object, a string, a list of strings, a byte string, or a list of string
pairs. -/
inductive Val where
  | vnone
  | enc (e : Encoding)
  | vstr (s : Str)
  | vlist (ss : List Str)
  | vbytes (b : List Nat)
  | vpairs (ps : List (Str × Str))
deriving Repr, DecidableEq

/-- Attribute dictionary of a frame instance. -/
abbrev Attrs := List (String × Val)

/-- Attribute read; absent attributes read as `None` (every spec name is
assigned by `Frame.__init__`, so lookups used by the code always hit). -/
def getattr (a : Attrs) (n : String) : Val :=
  match a.lookup n with
  | some v => v
  | none => .vnone

/-- Attribute write: replace the existing binding or append a new one. -/
def setattr : Attrs → String → Val → Attrs
  | [], n, v => [(n, v)]
  | (m, w) :: rest, n, v =>
      if m = n then (n, v) :: rest else (m, w) :: setattr rest n v

/-- Frame instance as seen by the version translator: its class, its
`frameid`, its flag set, and its attribute dictionary. -/
structure VFrame where
  cls : FrameClass
  frameid : String
  flags : List String
  attrs : Attrs

/-- Embeds `Frame._in_version` (frames.py lines 53-61).  The loop header is
`for version in version:`: its iterable is the name `version`, which is a
local of the method only because the loop itself assigns it, so Python
raises `UnboundLocalError` when the iterable is evaluated, before any
iteration runs; the parameter `versions` is never read and the membership
test of the body (embedded separately as `versionMatches`) is unreachable. -/
def in_version (cls : FrameClass) (versions : List Nat) : Except PyError Bool :=
  (Except.error PyError.unboundLocalError : Except PyError (List Nat)).bind
    fun vs => .ok (vs.any fun version => versionMatches cls.version version)

/-- Embeds `Frame._from_frame` (frames.py lines 35-42): copy constructor.
`cls(flags=frame.flags)` leaves `frameid` defaulted to the class name, then
every `_framespec` field of the source is copied by name. -/
def from_frame (cls : FrameClass) (f : VFrame) : VFrame :=
  { cls := cls
    frameid := cls.name
    flags := f.flags
    attrs := cls.fieldNames.map fun n => (n, getattr f.attrs n) }

/-- Embeds `Frame._to_version` (frames.py lines 63-72): identity case when
`_in_version(version)` holds; explicit `_v2_frame` counterpart when
translating to version 2; upward copy through the base class when the frame
is a v2 frame and the base accepts the target; otherwise
`IncompatibleFrameError`.  Every path first calls `in_version`. -/
def to_version (f : VFrame) (version : Nat) : Except PyError VFrame := do
  if ← in_version f.cls [version] then
    return f
  if version == 2 && f.cls.v2.isSome then
    match f.cls.v2 with
    | some c2 => return from_frame c2 f
    | none => pure ()
  if ← in_version f.cls [2] then
    match f.cls.base with
    | some b =>
        if ← in_version b [version] then
          return from_frame b f
    | none => pure ()
  throw (.incompatibleFrameError f.frameid version)

/-- Sample base class standing for `TextFrame` (no `_version` of its own
beyond the empty tuple inherited default). -/
def textFrameBase : FrameClass :=
  .mk "TextFrame" (.many []) ["encoding", "text"] none none

/-- Sample concrete frame class: a TIT2-like text frame declared for
versions 3 and 4, with no `_v2_frame` counterpart. -/
def sampleTIT2 : FrameClass :=
  .mk "TIT2" (.many [3, 4]) ["encoding", "text"] none (some textFrameBase)

/-- Sample frame instance of `sampleTIT2` holding the text "Hi". -/
def sampleFrame : VFrame :=
  { cls := sampleTIT2
    frameid := "TIT2"
    flags := []
    attrs := [("encoding", .vnone), ("text", .vlist [[72, 105]])] }

/-- Every call of the embedded `_in_version` raises `UnboundLocalError`. -/
theorem in_version_always_raises (cls : FrameClass) (vs : List Nat) :
    in_version cls vs = .error .unboundLocalError := rfl

/-- C8: the claimed idempotence of version translation is vacuous on the
code as written: `_to_version` never succeeds for any frame and any target
version, because its very first step `self._in_version(version)` raises
`UnboundLocalError` (the `for version in version:` loop reads the unbound
loop-local `version` as its own iterable).  Hence no frame and version
satisfy the claim's premise that `to_version(f, V)` succeeds. -/
theorem to_version_never_succeeds (f : VFrame) (v : Nat) :
    to_version f v = .error .unboundLocalError := rfl

/-- C1: the identity case is never reached.  `sampleFrame`'s version tag
`(3, 4)` includes the target 4 (first conjunct), so the claim says
`to_version` returns the frame unchanged; instead the code raises
`UnboundLocalError` out of `_in_version` (second conjunct). -/
theorem to_version_identity_case_raises :
    versionMatches sampleTIT2.version 4 = true ∧
    to_version sampleFrame 4 = .error .unboundLocalError :=
  ⟨rfl, rfl⟩

/-- C2: the incompatible case never raises `IncompatibleFrameError`.
`sampleFrame` is declared only for versions 3 and 4, has no `_v2_frame`
counterpart and its base accepts no version, so the claim says translating
to version 2 fails with `IncompatibleFrameError` naming "TIT2" and 2;
instead the code raises `UnboundLocalError` from `_in_version`. -/
theorem to_version_incompatible_case_raises :
    versionMatches sampleTIT2.version 2 = false ∧
    to_version sampleFrame 2 = .error .unboundLocalError ∧
    to_version sampleFrame 2 ≠ .error (.incompatibleFrameError "TIT2" 2) := by
  refine ⟨rfl, rfl, ?_⟩
  intro h
  have h2 : PyError.unboundLocalError = PyError.incompatibleFrameError "TIT2" 2 := by
    have h1 : (Except.error PyError.unboundLocalError : Except PyError VFrame)
        = .error (.incompatibleFrameError "TIT2" 2) := h
    exact Except.error.inj h1
  exact PyError.noConfusion h2

/-- Codepoint in the UTF-16 surrogate range, which Python's utf-8 and
utf-16 codecs refuse to encode. -/
def isSurrogate (c : Nat) : Bool := 0xD800 ≤ c && c ≤ 0xDFFF

/-- Modelled from the spec: representability of one codepoint under one
encoding (stagger/specs.py is not under src/).  latin-1 holds codepoints
below 256; the universal encodings hold every scalar value, i.e. every
codepoint up to 0x10FFFF outside the surrogate range. -/
def canEncodeChar : Encoding → Nat → Bool
  | .latin1, c => c < 256
  | _, c => !isSurrogate c && c ≤ 0x10FFFF

/-- UTF-8 byte image of one scalar value. -/
def utf8Char (c : Nat) : List Nat :=
  if c < 0x80 then [c]
  else if c < 0x800 then [0xC0 + c / 64, 0x80 + c % 64]
  else if c < 0x10000 then
    [0xE0 + c / 4096, 0x80 + c / 64 % 64, 0x80 + c % 64]
  else
    [0xF0 + c / 0x40000, 0x80 + c / 4096 % 64, 0x80 + c / 64 % 64,
     0x80 + c % 64]

/-- UTF-16 code units of one scalar value (surrogate pair above 0xFFFF). -/
def utf16Units (c : Nat) : List Nat :=
  if c < 0x10000 then [c]
  else [0xD800 + (c - 0x10000) / 0x400, 0xDC00 + (c - 0x10000) % 0x400]

/-- Little-endian bytes of one 16-bit code unit. -/
def unitBytesLE (u : Nat) : List Nat := [u % 256, u / 256 % 256]

/-- Big-endian bytes of one 16-bit code unit. -/
def unitBytesBE (u : Nat) : List Nat := [u / 256 % 256, u % 256]

/-- Byte image of one codepoint under one encoding (byte-order marks are
not modelled; they do not affect any claim). -/
def encodeChar : Encoding → Nat → List Nat
  | .latin1, c => [c % 256]
  | .utf8, c => utf8Char c
  | .utf16, c => ((utf16Units c).map unitBytesLE).flatten
  | .utf16be, c => ((utf16Units c).map unitBytesBE).flatten

/-- Modelled from the spec: `str.encode` for one string — the byte image
when every character is representable, `UnicodeEncodeError` otherwise. -/
def encodeStr (e : Encoding) (s : Str) : Except PyError (List Nat) :=
  if s.all (canEncodeChar e) then .ok ((s.map (encodeChar e)).flatten)
  else .error .unicodeEncodeError

/-- Null terminator of an encoding: one zero byte for the single-byte
encodings, two for the 16-bit ones (spec section 4.1). -/
def termBytes : Encoding → List Nat
  | .latin1 => [0]
  | .utf8 => [0]
  | _ => [0, 0]

/-- Selector byte of an encoding, as written by the encoding selector
field (spec section 4.1). -/
def encByte : Encoding → Nat
  | .latin1 => 0
  | .utf16 => 1
  | .utf16be => 2
  | .utf8 => 3

/-- Encoding recognized from a selector byte, if any. -/
def encOfByte : Nat → Option Encoding
  | 0 => some .latin1
  | 1 => some .utf16
  | 2 => some .utf16be
  | 3 => some .utf8
  | _ => none

/-- Field codec variants of the frame schemas (spec section 4.1); the
codecs themselves live in stagger/specs.py, which is not under src/, so
their behaviour is modelled from the spec.  A `sequenceSpec` is a sequence
of encoded strings, a `multiSpec` a paired sequence of encoded strings. -/
inductive FieldSpec where
  | encodingSpec (name : String)
  | encodedStringSpec (name : String)
  | sequenceSpec (name : String)
  | binaryDataSpec (name : String)
  | urlStringSpec (name : String)
  | multiSpec (name : String)
deriving Repr, DecidableEq

/-- Field name of a codec. -/
def FieldSpec.name : FieldSpec → String
  | .encodingSpec n => n
  | .encodedStringSpec n => n
  | .sequenceSpec n => n
  | .binaryDataSpec n => n
  | .urlStringSpec n => n
  | .multiSpec n => n

/-- Frame instance as seen by the encode/decode/merge paths: identifier,
flag set, `_framespec`, and the attribute dictionary holding one value per
spec name. -/
structure PFrame where
  frameid : String
  flags : List String
  framespec : List FieldSpec
  attrs : Attrs
deriving Repr, DecidableEq

/-- Modelled from the spec: write one sequence of encoded strings, each
followed by its terminator, concatenated in order. -/
def writeStrings (e : Encoding) : List Str → Except PyError (List Nat)
  | [] => .ok []
  | s :: rest => do
    let b ← encodeStr e s
    let r ← writeStrings e rest
    return b ++ termBytes e ++ r

/-- Modelled from the spec: write a paired sequence of encoded strings as
alternating pairs. -/
def writePairs (e : Encoding) : List (Str × Str) → Except PyError (List Nat)
  | [] => .ok []
  | (s, t) :: rest => do
    let b1 ← encodeStr e s
    let b2 ← encodeStr e t
    let r ← writePairs e rest
    return b1 ++ termBytes e ++ b2 ++ termBytes e ++ r

/-- Modelled from the spec: `spec.write(frame, value)` for each codec
variant.  Text codecs consult the frame's current `encoding` attribute;
URL text is ASCII only; raw binary is emitted unchanged. -/
def specWrite (f : PFrame) : FieldSpec → Except PyError (List Nat)
  | .encodingSpec n =>
    match getattr f.attrs n with
    | .enc e => .ok [encByte e]
    | _ => .error .typeError
  | .encodedStringSpec n =>
    match getattr f.attrs "encoding", getattr f.attrs n with
    | .enc e, .vstr s => (encodeStr e s).map (fun b => b ++ termBytes e)
    | _, _ => .error .typeError
  | .sequenceSpec n =>
    match getattr f.attrs "encoding", getattr f.attrs n with
    | .enc e, .vlist ss => writeStrings e ss
    | _, _ => .error .typeError
  | .binaryDataSpec n =>
    match getattr f.attrs n with
    | .vbytes b => .ok b
    | _ => .error .typeError
  | .urlStringSpec n =>
    match getattr f.attrs n with
    | .vstr s =>
        if s.all (fun c => c < 128) then .ok (s ++ [0])
        else .error .unicodeEncodeError
    | _ => .error .typeError
  | .multiSpec n =>
    match getattr f.attrs "encoding", getattr f.attrs n with
    | .enc e, .vpairs ps => writePairs e ps
    | _, _ => .error .typeError

/-- Concatenated field images over a list of specs. -/
def encodeSpecs (f : PFrame) : List FieldSpec → Except PyError (List Nat)
  | [] => .ok []
  | s :: rest => do
    let b ← specWrite f s
    let r ← encodeSpecs f rest
    return b ++ r

/-- Embeds the local `encode()` closure of `Frame._to_data` (frames.py
lines 78-82): run every field's write in schema order and concatenate. -/
def encode (f : PFrame) : Except PyError (List Nat) :=
  encodeSpecs f f.framespec

/-- Modelled from the spec: `EncodedStringSpec.preferred_encodings`
(stagger/specs.py, not under src/) — the fixed, narrowest-first preference
order used by the encode fallback. -/
def preferred_encodings : List Encoding :=
  [.latin1, .utf16, .utf16be, .utf8]

/-- Frame with its `encoding` attribute set to the given encoding
(`self.encoding = encoding`). -/
def setEnc (f : PFrame) (e : Encoding) : PFrame :=
  { f with attrs := setattr f.attrs "encoding" (.enc e) }

/-- Frame with its `encoding` attribute reset to `None`
(`self.encoding = None`). -/
def clearEnc (f : PFrame) : PFrame :=
  { f with attrs := setattr f.attrs "encoding" .vnone }

/-- Embeds the loop of `try_preferred_encodings` (frames.py lines 84-93)
over an explicit encoding list.  Each iteration sets `self.encoding`,
attempts the full encode pass, and — through the `finally` clause — resets
`self.encoding` to `None` on every exit: after a successful `return`,
after a caught `UnicodeEncodeError`, and after any other exception, which
propagates.  When the list is exhausted, `ValueError("Could not encode
strings")` is raised. -/
def tryEncodings (f : PFrame) : List Encoding → Except PyError (List Nat) × PFrame
  | [] => (.error (.valueError "Could not encode strings"), f)
  | e :: rest =>
    match encode (setEnc f e) with
    | .ok d => (.ok d, clearEnc (setEnc f e))
    | .error .unicodeEncodeError => tryEncodings (clearEnc (setEnc f e)) rest
    | .error err => (.error err, clearEnc (setEnc f e))

/-- Embeds `try_preferred_encodings` (frames.py lines 84-93). -/
def try_preferred_encodings (f : PFrame) : Except PyError (List Nat) × PFrame :=
  tryEncodings f preferred_encodings

/-- Whether the first `_framespec` entry is an `EncodingSpec`
(`isinstance(self._framespec[0], EncodingSpec)`). -/
def leadingEncodingSpec : List FieldSpec → Bool
  | .encodingSpec _ :: _ => true
  | _ => false

/-- Whether a value is Python `None`. -/
def isNone : Val → Bool
  | .vnone => true
  | _ => false

/-- Embeds `Frame._to_data` (frames.py lines 74-101), returning the bytes
(or the exception) together with the frame as left by the call, since the
fallback loop mutates `self.encoding`.  If the leading spec is an encoding
selector and no encoding is set, the preferred encodings are tried;
otherwise a direct encode pass runs, retried through the fallback loop on
`UnicodeEncodeError`.  The advisory `_bozo` warning (lines 75-76) does not
affect the returned bytes and is not modelled. -/
def to_data (f : PFrame) : Except PyError (List Nat) × PFrame :=
  if leadingEncodingSpec f.framespec && isNone (getattr f.attrs "encoding") then
    try_preferred_encodings f
  else
    match encode f with
    | .ok d => (.ok d, f)
    | .error .unicodeEncodeError => try_preferred_encodings f
    | .error e => (.error e, f)

/-- Looking an attribute up right after writing it yields the written
value. -/
theorem lookup_setattr (a : Attrs) (n : String) (v : Val) :
    (setattr a n v).lookup n = some v := by
  induction a with
  | nil => simp [setattr, List.lookup]
  | cons p rest ih =>
      by_cases h : p.1 = n
      · simp [setattr, h, List.lookup]
      · have hne : (n == p.1) = false := beq_eq_false_iff_ne.mpr fun hh => h hh.symm
        simp [setattr, h, List.lookup, hne, ih]

/-- Reading an attribute right after writing it yields the written value. -/
theorem getattr_setattr (a : Attrs) (n : String) (v : Val) :
    getattr (setattr a n v) n = v := by
  simp [getattr, lookup_setattr]

/-- Overwriting an attribute twice keeps only the second write. -/
theorem setattr_setattr (a : Attrs) (n : String) (v w : Val) :
    setattr (setattr a n v) n w = setattr a n w := by
  induction a with
  | nil => simp [setattr]
  | cons p rest ih =>
      by_cases h : p.1 = n
      · simp [setattr, h]
      · simp [setattr, h, ih]

/-- Setting the encoding after a set/clear cycle is the same as setting it
directly: the fallback loop's mutation of `self.encoding` does not change
what later encode passes see. -/
theorem setEnc_cycle (f : PFrame) (e x : Encoding) :
    setEnc (clearEnc (setEnc f x)) e = setEnc f e := by
  simp [setEnc, clearEnc, setattr_setattr]

/-- After any run of the fallback loop over a non-empty encoding list (or
over any list, starting from a frame whose encoding is already `None`),
the frame's `encoding` attribute is `None`: every loop iteration ends in
the `finally` clause's `self.encoding = None`. -/
theorem tryEncodings_encoding_none :
    ∀ (es : List Encoding) (f : PFrame),
      (es ≠ [] ∨ isNone (getattr f.attrs "encoding") = true) →
      isNone (getattr (tryEncodings f es).2.attrs "encoding") = true := by
  intro es
  induction es with
  | nil =>
      intro f h
      rcases h with h | h
      · exact absurd rfl h
      · simpa [tryEncodings] using h
  | cons e rest ih =>
      intro f _
      have hnone : isNone (getattr (clearEnc (setEnc f e)).attrs "encoding") = true := by
        simp [clearEnc, getattr_setattr, isNone]
      cases h2 : encode (setEnc f e) with
      | ok d => simp only [tryEncodings, h2]; exact hnone
      | error err =>
          cases err <;>
            simp only [tryEncodings, h2] <;>
            first
              | exact hnone
              | exact ih _ (Or.inr hnone)

/-- Exhausting the fallback loop: when every encoding of the list fails the
full encode pass with `UnicodeEncodeError`, the loop raises
`ValueError("Could not encode strings")`. -/
theorem tryEncodings_all_fail :
    ∀ (es : List Encoding) (f : PFrame),
      (∀ x ∈ es, encode (setEnc f x) = .error .unicodeEncodeError) →
      (tryEncodings f es).1 = .error (.valueError "Could not encode strings") := by
  intro es
  induction es with
  | nil => intro f _; simp [tryEncodings]
  | cons e rest ih =>
      intro f hfail
      have he : encode (setEnc f e) = .error .unicodeEncodeError :=
        hfail e (by simp)
      have hrest : ∀ x ∈ rest,
          encode (setEnc (clearEnc (setEnc f e)) x) = .error .unicodeEncodeError := by
        intro x hx
        rw [setEnc_cycle]
        exact hfail x (by simp [hx])
      simp [tryEncodings, he]
      exact ih _ hrest

/-- First success of the fallback loop: if every encoding before `e` in the
list fails the full encode pass with `UnicodeEncodeError` and the pass
under `e` yields `d`, the loop returns `d`. -/
theorem tryEncodings_first_ok :
    ∀ (pre : List Encoding) (f : PFrame) (e : Encoding) (rest : List Encoding)
      (d : List Nat),
      (∀ x ∈ pre, encode (setEnc f x) = .error .unicodeEncodeError) →
      encode (setEnc f e) = .ok d →
      (tryEncodings f (pre ++ e :: rest)).1 = .ok d := by
  intro pre
  induction pre with
  | nil =>
      intro f e rest d _ hok
      simp [tryEncodings, hok]
  | cons x pre ih =>
      intro f e rest d hfail hok
      have hx : encode (setEnc f x) = .error .unicodeEncodeError :=
        hfail x (by simp)
      simp [tryEncodings, hx]
      exact ih (clearEnc (setEnc f x)) e rest d
        (fun y hy => by rw [setEnc_cycle]; exact hfail y (by simp [hy]))
        (by rw [setEnc_cycle]; exact hok)

/-- Sample text frame whose text "あ" (codepoint 0x3042) is representable
in the universal encodings but not in latin-1, with no encoding selected. -/
def fallbackFrame : PFrame :=
  { frameid := "TIT2"
    flags := []
    framespec := [.encodingSpec "encoding", .sequenceSpec "text"]
    attrs := [("encoding", .vnone), ("text", .vlist [[0x3042]])] }

/-- Sample text frame whose text is a lone surrogate (codepoint 0xD800),
representable in none of the preferred encodings. -/
def surrogateFrame : PFrame :=
  { frameid := "TIT2"
    flags := []
    framespec := [.encodingSpec "encoding", .sequenceSpec "text"]
    attrs := [("encoding", .vnone), ("text", .vlist [[0xD800]])] }

/-- C9: whenever `_to_data` takes the fallback-retry path — because the
leading field is an encoding selector and no encoding is set, or because
the direct encode pass raised `UnicodeEncodeError` — the frame's
`encoding` attribute is `None` after the call, even when a fallback
encoding succeeded: the `finally` clause of the loop resets it on the
successful `return` as well. -/
theorem to_data_leaves_encoding_none (f : PFrame)
    (h : (leadingEncodingSpec f.framespec && isNone (getattr f.attrs "encoding")) = true
         ∨ encode f = .error .unicodeEncodeError) :
    isNone (getattr (to_data f).2.attrs "encoding") = true := by
  by_cases hc :
      (leadingEncodingSpec f.framespec && isNone (getattr f.attrs "encoding")) = true
  · simp only [to_data, hc, if_true, try_preferred_encodings]
    exact tryEncodings_encoding_none preferred_encodings f (Or.inl (by simp [preferred_encodings]))
  · rcases h with h | h
    · exact absurd h hc
    · simp only [to_data, hc, if_false, h, Bool.false_eq_true]
      exact tryEncodings_encoding_none preferred_encodings f (Or.inl (by simp [preferred_encodings]))

/-- Witness for C9 at `fallbackFrame`: the fallback path is taken, a
fallback encoding (utf-16) succeeds, and the frame's encoding attribute is
nevertheless `None` afterwards. -/
theorem to_data_leaves_encoding_none_witness :
    (leadingEncodingSpec fallbackFrame.framespec &&
        isNone (getattr fallbackFrame.attrs "encoding")) = true ∧
    (to_data fallbackFrame).1 = .ok [1, 66, 48, 0, 0] ∧
    isNone (getattr (to_data fallbackFrame).2.attrs "encoding") = true :=
  ⟨rfl, rfl, to_data_leaves_encoding_none fallbackFrame (Or.inl rfl)⟩

/-- C5: with no encoding pre-selected and an encoding selector leading the
schema, `_to_data` tries each encoding of the fixed preference order in
sequence and returns the bytes of the first full encode pass that
succeeds: if every encoding before `e` fails with `UnicodeEncodeError` and
the pass under `e` yields `d`, the call returns `d`. -/
theorem to_data_returns_first_success (f : PFrame) (pre : List Encoding)
    (e : Encoding) (rest : List Encoding) (d : List Nat)
    (hsplit : preferred_encodings = pre ++ e :: rest)
    (hpath : (leadingEncodingSpec f.framespec && isNone (getattr f.attrs "encoding")) = true)
    (hfail : ∀ x ∈ pre, encode (setEnc f x) = .error .unicodeEncodeError)
    (hok : encode (setEnc f e) = .ok d) :
    (to_data f).1 = .ok d := by
  simp only [to_data, hpath, if_true, try_preferred_encodings, hsplit]
  exact tryEncodings_first_ok pre f e rest d hfail hok

/-- Witness for C5 at `fallbackFrame`: latin-1 fails on "あ", utf-16 is the
first encoding that succeeds, and `_to_data` returns its bytes (selector
byte 1, then 0x42 0x30 and the two-byte terminator). -/
theorem to_data_returns_first_success_witness :
    preferred_encodings = [Encoding.latin1] ++ Encoding.utf16 :: [Encoding.utf16be, Encoding.utf8] ∧
    (∀ x ∈ [Encoding.latin1], encode (setEnc fallbackFrame x) = .error .unicodeEncodeError) ∧
    encode (setEnc fallbackFrame .utf16) = .ok [1, 66, 48, 0, 0] ∧
    (to_data fallbackFrame).1 = .ok [1, 66, 48, 0, 0] :=
  ⟨rfl, by intro x hx; simp only [List.mem_singleton] at hx; subst hx; rfl, rfl,
    to_data_returns_first_success fallbackFrame [.latin1] .utf16 [.utf16be, .utf8]
      [1, 66, 48, 0, 0] rfl rfl
      (by intro x hx; simp only [List.mem_singleton] at hx; subst hx; rfl) rfl⟩

/-- Refutation for C4 at `surrogateFrame`: when every preferred encoding
fails, the encode call raises `ValueError("Could not encode strings")`
(frames.py line 93) and not `EncodingError` of any message, contrary to
the claim. -/
theorem to_data_exhausted_not_encodingError :
    (to_data surrogateFrame).1 = .error (.valueError "Could not encode strings") ∧
    ∀ m, (to_data surrogateFrame).1 ≠ .error (.encodingError m) := by
  refine ⟨rfl, ?_⟩
  intro m h
  have h1 : (Except.error (PyError.valueError "Could not encode strings") :
      Except PyError (List Nat)) = .error (.encodingError m) :=
    Eq.trans (by rfl) h
  exact PyError.noConfusion (Except.error.inj h1)

/-- C4 as amended: for every frame that reaches the fallback-retry path
(leading encoding selector with no encoding set, or a direct encode pass
failing with `UnicodeEncodeError`), if the full encode pass fails with
`UnicodeEncodeError` under every encoding of the fixed preference order,
the call fails by raising `ValueError("Could not encode strings")`. -/
theorem to_data_exhausted_raises_valueError (f : PFrame)
    (hpath : (leadingEncodingSpec f.framespec && isNone (getattr f.attrs "encoding")) = true
             ∨ encode f = .error .unicodeEncodeError)
    (hfail : ∀ x ∈ preferred_encodings, encode (setEnc f x) = .error .unicodeEncodeError) :
    (to_data f).1 = .error (.valueError "Could not encode strings") := by
  by_cases hc :
      (leadingEncodingSpec f.framespec && isNone (getattr f.attrs "encoding")) = true
  · simp only [to_data, hc, if_true, try_preferred_encodings]
    exact tryEncodings_all_fail preferred_encodings f hfail
  · rcases hpath with h | h
    · exact absurd h hc
    · simp only [to_data, hc, if_false, h, Bool.false_eq_true, try_preferred_encodings]
      exact tryEncodings_all_fail preferred_encodings f hfail

/-- Witness for the amended C4 at `surrogateFrame`: every preferred
encoding fails on the lone surrogate, and the call raises
`ValueError("Could not encode strings")`. -/
theorem to_data_exhausted_raises_valueError_witness :
    (∀ x ∈ preferred_encodings, encode (setEnc surrogateFrame x) = .error .unicodeEncodeError) ∧
    (to_data surrogateFrame).1 = .error (.valueError "Could not encode strings") :=
  ⟨by intro x hx; fin_cases hx <;> rfl,
    to_data_exhausted_raises_valueError surrogateFrame (Or.inl rfl)
      (by intro x hx; fin_cases hx <;> rfl)⟩

/-- Split a byte string at the first single zero byte, dropping the
terminator; without a terminator the whole input is the string. -/
def splitTerm1 (data : List Nat) : List Nat × List Nat :=
  let a := data.takeWhile (fun b => b ≠ 0)
  let b := data.drop a.length
  (a, b.drop 1)

/-- Split a byte string at the first two-byte zero terminator, scanning in
16-bit steps, dropping the terminator. -/
def splitTerm2 : List Nat → List Nat × List Nat
  | [] => ([], [])
  | [b] => ([b], [])
  | 0 :: 0 :: rest => ([], rest)
  | b1 :: b2 :: rest =>
      let p := splitTerm2 rest
      (b1 :: b2 :: p.1, p.2)

/-- UTF-8 continuation byte. -/
def utf8Cont (b : Nat) : Bool := 0x80 ≤ b && b < 0xC0

/-- Modelled from the spec: UTF-8 decoding of a byte string (fuelled by the
input length; malformed sequences are a decode error). -/
def utf8DecodeF : Nat → List Nat → Except PyError Str
  | _, [] => .ok []
  | 0, _ :: _ => .error (.frameDecodeError "utf-8")
  | fuel + 1, b :: rest =>
    if b < 0x80 then (utf8DecodeF fuel rest).map fun s => b :: s
    else if b < 0xC2 then .error (.frameDecodeError "utf-8")
    else if b < 0xE0 then
      match rest with
      | b1 :: rest1 =>
          if utf8Cont b1 then
            (utf8DecodeF fuel rest1).map fun s =>
              ((b - 0xC0) * 64 + (b1 - 0x80)) :: s
          else .error (.frameDecodeError "utf-8")
      | _ => .error (.frameDecodeError "utf-8")
    else if b < 0xF0 then
      match rest with
      | b1 :: b2 :: rest2 =>
          if utf8Cont b1 && utf8Cont b2 then
            (utf8DecodeF fuel rest2).map fun s =>
              ((b - 0xE0) * 4096 + (b1 - 0x80) * 64 + (b2 - 0x80)) :: s
          else .error (.frameDecodeError "utf-8")
      | _ => .error (.frameDecodeError "utf-8")
    else if b < 0xF5 then
      match rest with
      | b1 :: b2 :: b3 :: rest3 =>
          if utf8Cont b1 && utf8Cont b2 && utf8Cont b3 then
            (utf8DecodeF fuel rest3).map fun s =>
              ((b - 0xF0) * 0x40000 + (b1 - 0x80) * 4096 +
                (b2 - 0x80) * 64 + (b3 - 0x80)) :: s
          else .error (.frameDecodeError "utf-8")
      | _ => .error (.frameDecodeError "utf-8")
    else .error (.frameDecodeError "utf-8")

/-- Little-endian 16-bit code units of a byte string; an odd byte count is
a decode error. -/
def bytesToUnitsLE : List Nat → Except PyError (List Nat)
  | [] => .ok []
  | [_] => .error (.frameDecodeError "utf-16")
  | lo :: hi :: rest => (bytesToUnitsLE rest).map fun us => (lo + 256 * hi) :: us

/-- Big-endian 16-bit code units of a byte string; an odd byte count is a
decode error. -/
def bytesToUnitsBE : List Nat → Except PyError (List Nat)
  | [] => .ok []
  | [_] => .error (.frameDecodeError "utf-16")
  | hi :: lo :: rest => (bytesToUnitsBE rest).map fun us => (256 * hi + lo) :: us

/-- Scalar value of a UTF-16 surrogate pair. -/
def surrPair (u1 u2 : Nat) : Nat :=
  0x10000 + (u1 - 0xD800) * 0x400 + (u2 - 0xDC00)

/-- Codepoints of a UTF-16 code-unit sequence; lone or misordered
surrogates are a decode error. -/
def combineUnits : List Nat → Except PyError Str
  | [] => .ok []
  | [u] =>
      if isSurrogate u then .error (.frameDecodeError "utf-16")
      else .ok [u]
  | u1 :: u2 :: rest =>
      if !isSurrogate u1 then
        (combineUnits (u2 :: rest)).map fun s => u1 :: s
      else if u1 < 0xDC00 && 0xDC00 ≤ u2 && u2 < 0xE000 then
        (combineUnits rest).map fun s => surrPair u1 u2 :: s
      else .error (.frameDecodeError "utf-16")

/-- Modelled from the spec: `bytes.decode` under one encoding — latin-1
maps bytes to codepoints, the others validate their byte structure. -/
def decodeStr (e : Encoding) (b : List Nat) : Except PyError Str :=
  match e with
  | .latin1 => .ok b
  | .utf8 => utf8DecodeF b.length b
  | .utf16 => (bytesToUnitsLE b).bind combineUnits
  | .utf16be => (bytesToUnitsBE b).bind combineUnits

/-- Modelled from the spec: `EncodedStringSpec.read` — consume up to the
terminator of the active encoding's width and decode the consumed bytes. -/
def readEncodedStr (e : Encoding) (data : List Nat) :
    Except PyError (Str × List Nat) :=
  let p := if e = .latin1 || e = .utf8 then splitTerm1 data else splitTerm2 data
  (decodeStr e p.1).map fun s => (s, p.2)

/-- Modelled from the spec: `SequenceSpec.read` — repeatedly apply the
string codec until the byte cursor is exhausted (fuelled by the input
length; every round consumes at least one byte). -/
def readStrings : Nat → Encoding → List Nat → Except PyError (List Str)
  | _, _, [] => .ok []
  | 0, _, _ :: _ => .error (.frameDecodeError "sequence")
  | fuel + 1, e, data => do
      let (s, rest) ← readEncodedStr e data
      let ss ← readStrings fuel e rest
      return s :: ss

/-- Modelled from the spec: `MultiSpec.read` for role/name pairs — read two
strings alternately until exhaustion. -/
def readPairs : Nat → Encoding → List Nat → Except PyError (List (Str × Str))
  | _, _, [] => .ok []
  | 0, _, _ :: _ => .error (.frameDecodeError "pairs")
  | fuel + 1, e, data => do
      let (s1, rest1) ← readEncodedStr e data
      let (s2, rest2) ← readEncodedStr e rest1
      let ps ← readPairs fuel e rest2
      return (s1, s2) :: ps

/-- Current encoding of a frame, as consulted by the text codecs; a frame
whose encoding selector has not been decoded yet has none. -/
def currentEncoding (f : PFrame) : Except PyError Encoding :=
  match getattr f.attrs "encoding" with
  | .enc e => .ok e
  | _ => .error (.frameDecodeError "no encoding")

/-- Modelled from the spec: `spec.read(frame, data)` for each codec
variant, returning the decoded value and the unconsumed bytes.  The
encoding selector requires one recognized byte; raw binary consumes
everything; URL text is ASCII only. -/
def specRead (f : PFrame) : FieldSpec → List Nat → Except PyError (Val × List Nat)
  | .encodingSpec _, data =>
    match data with
    | [] => .error (.frameDecodeError "missing encoding byte")
    | b :: rest =>
      match encOfByte b with
      | some e => .ok (.enc e, rest)
      | none => .error (.frameDecodeError "unrecognized encoding")
  | .encodedStringSpec _, data => do
      let e ← currentEncoding f
      let (s, rest) ← readEncodedStr e data
      return (.vstr s, rest)
  | .sequenceSpec _, data => do
      let e ← currentEncoding f
      let ss ← readStrings data.length e data
      return (.vlist ss, [])
  | .binaryDataSpec _, data => .ok (.vbytes data, [])
  | .urlStringSpec _, data =>
      let p := splitTerm1 data
      if p.1.all (fun c => c < 128) then .ok (.vstr p.1, p.2)
      else .error (.frameDecodeError "non-ascii url")
  | .multiSpec _, data => do
      let e ← currentEncoding f
      let ps ← readPairs data.length e data
      return (.vpairs ps, [])

/-- Embeds the read loop of `Frame._from_data` (frames.py lines 30-32):
`val, data = spec.read(frame, data); setattr(frame, spec.name, val)` for
every spec in schema order, threading the remaining bytes; leftover bytes
after the last spec are discarded. -/
def readFields : PFrame → List FieldSpec → List Nat → Except PyError PFrame
  | f, [], _ => .ok f
  | f, s :: rest, data => do
      let (v, data2) ← specRead f s data
      readFields { f with attrs := setattr f.attrs s.name v } rest data2

/-- Python truthiness default of `Frame.__init__`'s frameid argument
(frames.py line 17): an empty (falsy) identifier defaults to the class
name. -/
def pyFrameid (clsName frameid : String) : String :=
  if frameid = "" then clsName else frameid

/-- Embeds `Frame._from_data` (frames.py lines 24-33): construct the frame
with all fields unset (`cls(frameid, flags)` supplies no field values),
then drive every field codec over the byte cursor in schema order.  The
advisory `_untested` warning (lines 27-29) does not affect the result and
is not modelled.  Any codec exception propagates out — there is no
try/except here. -/
def from_data (clsName : String) (framespec : List FieldSpec) (frameid : String)
    (flags : List String) (data : List Nat) : Except PyError PFrame :=
  let f0 : PFrame :=
    { frameid := pyFrameid clsName frameid
      flags := flags
      framespec := framespec
      attrs := framespec.map fun s => (s.name, Val.vnone) }
  readFields f0 framespec data

/-- Embeds `ErrorFrame` (frames.py lines 128-141): a frame whose payload
failed to decode, holding the raw bytes that failed and the causing
exception; its flag set is empty (`super().__init__(frameid, {})`). -/
structure ErrorFrameData where
  frameid : String
  data : List Nat
  exception : PyError
deriving Repr, DecidableEq

/-- Result of the per-frame decode path: a normal frame or an error
frame. -/
inductive DecodedFrame where
  | normal (f : PFrame)
  | failed (e : ErrorFrameData)
deriving Repr, DecidableEq

/-- Modelled from the spec: the tag container's per-frame decode path
(spec sections 4.3 and 7; the wrapping code lives in the tag module, which
is not under src/).  It runs `Frame._from_data` on the resolved schema and,
on any exception, substitutes `ErrorFrame(frameid, data, exception)`
carrying the original raw bytes, so that the exception never propagates
out of the per-frame path. -/
def frame_decode (clsName : String) (framespec : List FieldSpec)
    (frameid : String) (flags : List String) (data : List Nat) : DecodedFrame :=
  match from_data clsName framespec frameid flags data with
  | .ok f => .normal f
  | .error e => .failed ⟨pyFrameid "ErrorFrame" frameid, data, e⟩

/-- C3: if decoding any field of the schema raises an exception — i.e. the
embedded `Frame._from_data` run fails — the per-frame decode path yields an
Error Frame carrying the original raw bytes of the frame and the causing
exception, instead of propagating the exception. -/
theorem frame_decode_isolates_errors (clsName : String) (framespec : List FieldSpec)
    (frameid : String) (flags : List String) (data : List Nat) (e : PyError)
    (h : from_data clsName framespec frameid flags data = .error e) :
    frame_decode clsName framespec frameid flags data =
      .failed ⟨pyFrameid "ErrorFrame" frameid, data, e⟩ := by
  simp [frame_decode, h]

/-- Schema of a plain text frame: `TextFrame._framespec` (frames.py lines
145-146) is an encoding selector followed by a sequence of encoded
strings. -/
def textFramespec : List FieldSpec :=
  [.encodingSpec "encoding", .sequenceSpec "text"]

/-- Witness for C3: the payload `[9]` fails at the first field (9 is not a
recognized encoding selector byte), and the per-frame decode yields an
Error Frame holding the original byte and the exception. -/
theorem frame_decode_isolates_errors_witness :
    from_data "TIT2" textFramespec "TIT2" [] [9] =
      .error (.frameDecodeError "unrecognized encoding") ∧
    frame_decode "TIT2" textFramespec "TIT2" [] [9] =
      .failed ⟨"TIT2", [9], .frameDecodeError "unrecognized encoding"⟩ :=
  ⟨rfl, frame_decode_isolates_errors "TIT2" textFramespec "TIT2" [] [9]
    (.frameDecodeError "unrecognized encoding") rfl⟩

/-- Advisory warnings surfaced by the embedded code; only the
duplicate-collapsed warning of `Frame._merge` (frames.py line 50) bears on
a claim. -/
inductive FrameWarning where
  | duplicate (frameid : String)
deriving Repr, DecidableEq

/-- Embeds `Frame._merge` (frames.py lines 44-51): a duplicate-allowed
type returns its input unchanged; otherwise `frames[-1:]` survives and a
duplicate warning naming `frames[0].frameid` is emitted when more than one
instance was present. -/
def Frame_merge (allow_duplicates : Bool) (frames : List PFrame) :
    List PFrame × List FrameWarning :=
  if allow_duplicates then (frames, [])
  else
    let ws : List FrameWarning :=
      match frames with
      | f :: _ :: _ => [.duplicate f.frameid]
      | _ => []
    (frames.drop (frames.length - 1), ws)

/-- Dropping all but one element of a non-empty list leaves its last
element. -/
theorem drop_length_sub_one {α : Type} :
    ∀ (l : List α) (h : l ≠ []), l.drop (l.length - 1) = [l.getLast h]
  | [x], _ => rfl
  | x :: y :: t, _ => by
      have h1 : (x :: y :: t : List α).drop ((x :: y :: t).length - 1)
          = (y :: t).drop ((y :: t).length - 1) := by
        simp [List.length_cons]
      rw [h1, drop_length_sub_one (y :: t) (List.cons_ne_nil y t)]
      simp [List.getLast_cons_cons]

/-- C6: for a non-empty run of same-type frames, the default merge returns
the input unchanged when the type allows duplicates; otherwise it keeps
only the last frame, emitting exactly one duplicate-collapsed warning
(naming the first frame) when more than one instance was present and none
otherwise. -/
theorem Frame_merge_policy (allow : Bool) (frames : List PFrame)
    (h : frames ≠ []) :
    (allow = true → Frame_merge allow frames = (frames, [])) ∧
    (allow = false →
      (Frame_merge allow frames).1 = [frames.getLast h] ∧
      (Frame_merge allow frames).2 =
        if 1 < frames.length then [.duplicate (frames.head h).frameid]
        else []) := by
  constructor
  · intro ha; simp [Frame_merge, ha]
  · intro ha
    constructor
    · simp [Frame_merge, ha, drop_length_sub_one frames h]
    · match frames, h with
      | [f], _ => simp [Frame_merge, ha]
      | f :: g :: t, _ =>
          have hlt : 1 < (f :: g :: t).length := by
            simp [List.length_cons]
          simp [Frame_merge, ha, hlt]

/-- Witness for C6: two copies of the empty-schema frame "XYZ" merge, under
each policy, as the claim describes. -/
theorem Frame_merge_policy_witness :
    Frame_merge true [⟨"XYZ", [], [], []⟩, ⟨"XYZ", [], [], []⟩] =
      ([⟨"XYZ", [], [], []⟩, ⟨"XYZ", [], [], []⟩], []) ∧
    Frame_merge false [⟨"XYZ", [], [], []⟩, ⟨"XYZ", [], [], []⟩] =
      ([⟨"XYZ", [], [], []⟩], [.duplicate "XYZ"]) :=
  ⟨(Frame_merge_policy true [⟨"XYZ", [], [], []⟩, ⟨"XYZ", [], [], []⟩]
      (by simp)).1 rfl,
   by
    have h2 := (Frame_merge_policy false
      [⟨"XYZ", [], [], []⟩, ⟨"XYZ", [], [], []⟩] (by simp)).2 rfl
    have e1 := h2.1
    have e2 := h2.2
    exact Prod.ext (by simpa using e1) (by simpa using e2)⟩

/-- Modelled from the spec: `spec.validate(value)` — the shape checks run
on explicit construction and assignment (spec sections 4.1 and 4.3). -/
def specValidate : FieldSpec → Val → Bool
  | .encodingSpec _, .enc _ => true
  | .encodedStringSpec _, .vstr _ => true
  | .sequenceSpec _, .vlist _ => true
  | .binaryDataSpec _, .vbytes _ => true
  | .urlStringSpec _, .vstr s => s.all (fun c => c < 128)
  | .multiSpec _, .vpairs _ => true
  | _, _ => false

/-- Per-spec attribute initialization of `Frame.__init__` (frames.py lines
19-22): each spec's value is taken from the keyword arguments, validated
when it is not `None`, and assigned (unsupplied fields are set to
`None`). -/
def initAttrs : List FieldSpec → List (String × Val) → Except PyError Attrs
  | [], _ => .ok []
  | s :: rest, kwargs => do
      let v := match kwargs.lookup s.name with
        | some v => v
        | none => Val.vnone
      if v = Val.vnone then
        let a ← initAttrs rest kwargs
        return (s.name, Val.vnone) :: a
      else
        if specValidate s v then
          let a ← initAttrs rest kwargs
          return (s.name, v) :: a
        else .error .validationError

/-- Embeds `Frame.__init__` (frames.py lines 16-22): the identifier
defaults to the class name when absent or falsy, a missing flag dict
becomes empty (the caller passes the flag list directly), and the fields
are initialized from the keyword arguments through `initAttrs`. -/
def frame_init (clsName : String) (framespec : List FieldSpec)
    (frameid : Option String) (flags : List String)
    (kwargs : List (String × Val)) : Except PyError PFrame := do
  let fid := match frameid with
    | some s => pyFrameid clsName s
    | none => clsName
  let attrs ← initAttrs framespec kwargs
  return { frameid := fid, flags := flags, framespec := framespec, attrs := attrs }

/-- Static data of a text frame class as needed by its merge: its
`__name__` and its `_allow_duplicates` flag. -/
structure TFClass where
  name : String
  allow_duplicates : Bool
deriving Repr, DecidableEq

/-- Text lists of the input frames in order: `f.text` for each frame,
demanding a list value as `frame.text.extend(f.text)` does. -/
def collectTexts : List PFrame → Except PyError (List Str)
  | [] => .ok []
  | f :: rest =>
      match getattr f.attrs "text" with
      | .vlist ss => (collectTexts rest).map fun ts => ss ++ ts
      | _ => .error .typeError

/-- Embeds `TextFrame._merge` (frames.py lines 151-156): construct a fresh
instance via `cls(text=[])`, extend its text list with every input frame's
text list in order, and return that single survivor.  The
`_allow_duplicates` flag of the class is never consulted. -/
def TextFrame_merge (cls : TFClass) (frames : List PFrame) :
    Except PyError (List PFrame) := do
  let frame ← frame_init cls.name textFramespec none [] [("text", Val.vlist [])]
  let texts ← collectTexts frames
  return [{ frame with attrs := setattr frame.attrs "text" (.vlist texts) }]

/-- Text list of a frame holding one. -/
def textOf (f : PFrame) : List Str :=
  match getattr f.attrs "text" with
  | .vlist ss => ss
  | _ => []

/-- Collecting the text lists of frames that all hold one succeeds with
their concatenation in input order. -/
theorem collectTexts_eq (frames : List PFrame)
    (hw : ∀ f ∈ frames, ∃ ss, getattr f.attrs "text" = Val.vlist ss) :
    collectTexts frames = .ok ((frames.map textOf).flatten) := by
  induction frames with
  | nil => rfl
  | cons f rest ih =>
      obtain ⟨ss, hss⟩ := hw f (by simp)
      have hr := ih fun g hg => hw g (by simp [hg])
      simp [collectTexts, hss, hr, textOf, Except.map]

/-- C7: merging a non-empty list of plain text-list frames yields exactly
one surviving frame, whose text list is the concatenation of all input
frames' text lists in input order. -/
theorem TextFrame_merge_concatenates (cls : TFClass) (frames : List PFrame)
    (hne : frames ≠ [])
    (hw : ∀ f ∈ frames, ∃ ss, getattr f.attrs "text" = Val.vlist ss) :
    ∃ g, TextFrame_merge cls frames = .ok [g] ∧
      getattr g.attrs "text" = Val.vlist ((frames.map textOf).flatten) := by
  have hc := collectTexts_eq frames hw
  have hinit : frame_init cls.name textFramespec none [] [("text", Val.vlist [])]
      = .ok { frameid := cls.name, flags := [], framespec := textFramespec,
              attrs := [("encoding", Val.vnone), ("text", Val.vlist [])] } := rfl
  have hset : setattr [("encoding", Val.vnone), ("text", Val.vlist [])] "text"
      (Val.vlist ((frames.map textOf).flatten))
      = [("encoding", Val.vnone), ("text", Val.vlist ((frames.map textOf).flatten))] := rfl
  refine ⟨{ frameid := cls.name, flags := [], framespec := textFramespec,
            attrs := [("encoding", Val.vnone),
                      ("text", Val.vlist ((frames.map textOf).flatten))] }, ?_, rfl⟩
  simp [TextFrame_merge, hinit, hc, hset, bind, Except.bind, pure, Except.pure]

/-- Sample text frame holding the text list ["A"], latin-1 selected. -/
def tf1 : PFrame :=
  { frameid := "TIT2"
    flags := []
    framespec := textFramespec
    attrs := [("encoding", .enc .latin1), ("text", .vlist [[65]])] }

/-- Sample text frame holding the text list ["B", "C"], with an unknown
flag and an overridden identifier. -/
def tf2 : PFrame :=
  { frameid := "XIT2"
    flags := ["unknown"]
    framespec := textFramespec
    attrs := [("encoding", .vnone), ("text", .vlist [[66], [67]])] }

/-- Witness for C7: merging the frames with texts ["A"] and ["B", "C"]
yields one frame whose text list is ["A", "B", "C"]. -/
theorem TextFrame_merge_concatenates_witness :
    ([tf1, tf2] ≠ ([] : List PFrame)) ∧
    ∃ g, TextFrame_merge ⟨"TIT2", false⟩ [tf1, tf2] = .ok [g] ∧
      getattr g.attrs "text" = Val.vlist [[65], [66], [67]] := by
  refine ⟨by simp, ?_⟩
  have hw : ∀ f ∈ [tf1, tf2], ∃ ss, getattr f.attrs "text" = Val.vlist ss := by
    intro f hf
    simp only [List.mem_cons, List.not_mem_nil, or_false] at hf
    rcases hf with rfl | rfl
    · exact ⟨[[65]], rfl⟩
    · exact ⟨[[66], [67]], rfl⟩
  exact TextFrame_merge_concatenates ⟨"TIT2", false⟩ [tf1, tf2] (by simp) hw

/-- C10: the survivor of the text-frame merge is a freshly constructed
instance: empty flag set, `encoding` equal to `None`, and identifier equal
to the class's canonical name — the inputs' flags, encoding selections and
overridden identifiers are discarded — and the result is the same whether
or not the class allows duplicates. -/
theorem TextFrame_merge_fresh_survivor (n : String) (a : Bool)
    (frames : List PFrame) (hne : frames ≠ [])
    (hw : ∀ f ∈ frames, ∃ ss, getattr f.attrs "text" = Val.vlist ss) :
    ∃ g, TextFrame_merge ⟨n, a⟩ frames = .ok [g] ∧
      g.flags = [] ∧ getattr g.attrs "encoding" = Val.vnone ∧ g.frameid = n ∧
      TextFrame_merge ⟨n, a⟩ frames = TextFrame_merge ⟨n, !a⟩ frames := by
  have hc := collectTexts_eq frames hw
  have hinit : frame_init n textFramespec none [] [("text", Val.vlist [])]
      = .ok { frameid := n, flags := [], framespec := textFramespec,
              attrs := [("encoding", Val.vnone), ("text", Val.vlist [])] } := rfl
  have hset : setattr [("encoding", Val.vnone), ("text", Val.vlist [])] "text"
      (Val.vlist ((frames.map textOf).flatten))
      = [("encoding", Val.vnone), ("text", Val.vlist ((frames.map textOf).flatten))] := rfl
  refine ⟨{ frameid := n, flags := [], framespec := textFramespec,
            attrs := [("encoding", Val.vnone),
                      ("text", Val.vlist ((frames.map textOf).flatten))] },
          ?_, rfl, rfl, rfl, rfl⟩
  simp [TextFrame_merge, hinit, hc, hset, bind, Except.bind, pure, Except.pure]

/-- Witness for C10: merging `tf1` (latin-1 selected) and `tf2` (unknown
flag, overridden identifier "XIT2") under a duplicate-allowing class named
"TIT2" yields a fresh survivor with no flags, no encoding and identifier
"TIT2", identically to the non-duplicate-allowing class. -/
theorem TextFrame_merge_fresh_survivor_witness :
    ([tf1, tf2] ≠ ([] : List PFrame)) ∧
    ∃ g, TextFrame_merge ⟨"TIT2", true⟩ [tf1, tf2] = .ok [g] ∧
      g.flags = [] ∧ getattr g.attrs "encoding" = Val.vnone ∧ g.frameid = "TIT2" ∧
      TextFrame_merge ⟨"TIT2", true⟩ [tf1, tf2] =
        TextFrame_merge ⟨"TIT2", false⟩ [tf1, tf2] := by
  refine ⟨by simp, ?_⟩
  have hw : ∀ f ∈ [tf1, tf2], ∃ ss, getattr f.attrs "text" = Val.vlist ss := by
    intro f hf
    simp only [List.mem_cons, List.not_mem_nil, or_false] at hf
    rcases hf with rfl | rfl
    · exact ⟨[[65]], rfl⟩
    · exact ⟨[[66], [67]], rfl⟩
  exact TextFrame_merge_fresh_survivor "TIT2" true [tf1, tf2] (by simp) hw
